import Mathlib

/-!
Verification of the dns-explorer backend core (`app/cache.py` and
`app/resolver.py`) against its natural-language specification.

The Python code is shallowly embedded:

* a Python `dict` (insertion-ordered, unique keys) becomes an association
  list in insertion order, with `dict` assignment updating an existing key
  in place and appending a fresh key at the end;
* wall-clock times (`time.time()`) are abstracted to integer instants that
  are passed in explicitly; elapsed-time measurements (`time.perf_counter`
  round trips), which no verified property depends on, are abstracted to 0;
* the network (`dns.query.udp`), the system resolver fallback
  (`dns.resolver.resolve`) and `random.choice(ROOTS)` are oracles supplied
  by a `NetEnv`: the i-th UDP exchange yields `env.udp i`, the i-th random
  root pick is determined by `env.rootChoice i`, and a system-resolver
  lookup that raises is identified with one that returns no addresses
  (both contribute no IPs in the source);
* a raised Python exception is an explicit value: `ValueError` from
  `resolve` and the `StopIteration` that `TTLStore.set` raises when it
  pops from an empty dict surface as `Except.error` / `Option.none`.
-/

namespace DnsExplorer

/-- Decidable equality for `Except`, used to evaluate concrete `resolve`
outcomes inside proofs. -/
instance {ε α : Type} [DecidableEq ε] [DecidableEq α] : DecidableEq (Except ε α)
  | .ok a, .ok b =>
    if h : a = b then .isTrue (h ▸ rfl) else .isFalse (fun hh => h (Except.ok.inj hh))
  | .error a, .error b =>
    if h : a = b then .isTrue (h ▸ rfl) else .isFalse (fun hh => h (Except.error.inj hh))
  | .ok _, .error _ => .isFalse Except.noConfusion
  | .error _, .ok _ => .isFalse Except.noConfusion

/-! ## Association-list model of a Python dict (insertion-ordered) -/

/-- Lookup in an insertion-ordered dict, `d.get(k)`. -/
def alistGet {κ β : Type} [DecidableEq κ] (l : List (κ × β)) (k : κ) : Option β :=
  match l with
  | [] => none
  | (k', v) :: rest => if k' = k then some v else alistGet rest k

/-- Dict assignment `d[k] = v`: replace in place if the key is present
(keeping its insertion position), otherwise append at the end. -/
def alistSet {κ β : Type} [DecidableEq κ] (l : List (κ × β)) (k : κ) (v : β) : List (κ × β) :=
  match l with
  | [] => [(k, v)]
  | (k', v') :: rest => if k' = k then (k, v) :: rest else (k', v') :: alistSet rest k v

/-- Dict removal `d.pop(k, None)`: delete the entry for `k` if present. -/
def alistPop {κ β : Type} [DecidableEq κ] (l : List (κ × β)) (k : κ) : List (κ × β) :=
  match l with
  | [] => []
  | (k', v') :: rest => if k' = k then rest else (k', v') :: alistPop rest k

/-! ## cache.py — TTLStore -/

/-- Cache key used by the resolver: `(str(name), qtype)`. -/
abbrev Key := String × String

/-- `TTLStore` from cache.py: `self.s` is a dict mapping a key to the pair
`(expires_at, data)`; `self.maxsize` bounds the number of entries. -/
structure TTLStore (α : Type) where
  s : List (Key × (Int × α))
  maxsize : Nat
deriving DecidableEq

/-- `TTLStore.get` (cache.py lines 8-16), with the `time.time()` reading
passed in as `now`. Returns the value (or `none`) together with the store
after the call: an expired entry is popped.

In the source, `v = self.s.get(k)` followed by `if not v` tests for a
missing key: when the key is present, `v` is a two-element tuple and hence
always truthy. -/
def TTLStore.get {α : Type} (c : TTLStore α) (k : Key) (now : Int) :
    Option α × TTLStore α :=
  match alistGet c.s k with
  | none => (none, c)
  | some (exp, data) =>
    if exp ≤ now then (none, ⟨alistPop c.s k, c.maxsize⟩)
    else (some data, c)

/-- `TTLStore.set` (cache.py lines 18-23), with the `time.time()` reading
passed in as `now`. `none` models the `StopIteration` that
`self.s.pop(next(iter(self.s)))` raises when the dict is empty while
`len(self.s) >= self.maxsize` (only possible when `maxsize` is 0); the
raise happens before any mutation. Eviction pops the first key of the
dict, i.e. the oldest entry by insertion order. -/
def TTLStore.set {α : Type} (c : TTLStore α) (k : Key) (data : α) (ttl now : Int) :
    Option (TTLStore α) :=
  if ttl ≤ 0 then some c
  else if c.maxsize ≤ c.s.length then
    match c.s with
    | [] => none
    | _ :: rest => some ⟨alistSet rest k (now + ttl, data), c.maxsize⟩
  else some ⟨alistSet c.s k (now + ttl, data), c.maxsize⟩

/-- One client operation against the cache, with its `time.time()` instant. -/
inductive CacheOp (α : Type) where
  | getOp (k : Key) (now : Int)
  | setOp (k : Key) (data : α) (ttl now : Int)

/-- Run one operation, keeping the store that results. A `set` that raises
`StopIteration` has not mutated the dict (the raise precedes the insert),
so the store is unchanged in that case. -/
def applyOp {α : Type} (c : TTLStore α) : CacheOp α → TTLStore α
  | .getOp k now => (TTLStore.get c k now).2
  | .setOp k d ttl now => (TTLStore.set c k d ttl now).getD c

/-- Run a sequence of cache operations. -/
def runOps {α : Type} (c : TTLStore α) (ops : List (CacheOp α)) : TTLStore α :=
  ops.foldl applyOp c

/-! ## resolver.py — data model -/

/-- DNS record types the code inspects; every other type is `other`. -/
inductive RdType where
  | A
  | AAAA
  | CNAME
  | NS
  | other (name : String)
deriving DecidableEq

/-- `dns.rdatatype.to_text` on the types above. -/
def RdType.toText : RdType → String
  | .A => "A"
  | .AAAA => "AAAA"
  | .CNAME => "CNAME"
  | .NS => "NS"
  | .other s => s

/-- One rdata of an RRset. `toText` is `r.to_text()`; `address` is the
`address` attribute carried by A/AAAA rdata (`getattr(r, "address",
r.to_text())` falls back to `toText` when it is absent); `target` is the
text of the `target` name carried by CNAME/NS rdata (absolute form, with
trailing dot). -/
structure Rdata where
  toText : String
  address : Option String
  target : String
deriving DecidableEq

/-- A wire-level RRset as dnspython presents it: owner name text (absolute),
record type, TTL, rdata list. -/
structure RRset where
  name : String
  rdtype : RdType
  ttl : Nat
  records : List Rdata
deriving DecidableEq

/-- The JSON serialization of an RRset produced by `_rrset` (and by the
identical inline serialization of the authority section): `records` keeps
the `value` strings of the `{"value": r.to_text()}` objects. -/
structure RRsetJson where
  name : String
  rdtype : String
  ttl : Nat
  records : List String
deriving DecidableEq

/-- `_rrset` (resolver.py lines 11-17); the inline authority serialization
in lines 94-101 is field-for-field identical. -/
def serializeRrset (r : RRset) : RRsetJson :=
  { name := r.name, rdtype := r.rdtype.toText, ttl := r.ttl,
    records := r.records.map Rdata.toText }

/-- Response codes: the code only distinguishes NXDOMAIN. -/
inductive Rcode where
  | NOERROR
  | NXDOMAIN
  | otherRc (n : Nat)
deriving DecidableEq

/-- A parsed DNS response as the resolver reads it. -/
structure DnsResponse where
  answer : List RRset
  authority : List RRset
  additional : List RRset
  rcode : Rcode
deriving DecidableEq

/-- Environment of one `resolve` call: the oracles that stand for the
network, the system recursive resolver, `random.choice` and the two
`time.time()` readings taken by the cache `get` and `set`. -/
structure NetEnv where
  udp : Nat → Except String DnsResponse
  rootChoice : Nat → Nat
  sysResolveA : String → List String
  sysResolveAAAA : String → List String
  cacheGetTime : Int
  cacheSetTime : Int

/-- Python `s.rstrip(".")`: drop every trailing dot. -/
def rstripDot (s : String) : String :=
  String.mk ((s.toList.reverse.dropWhile (fun c => c = '.')).reverse)

/-- `dns.name.from_text(qname)` followed by making the name absolute
(resolver.py lines 34-35): the textual effect is a trailing root dot. -/
def fromText (q : String) : String :=
  if q.toList.getLast? = some '.' then q else q ++ "."

/-- The compiled-in root server list (resolver.py lines 6-8). -/
def ROOTS : List String :=
  ["198.41.0.4", "199.9.14.201", "192.33.4.12", "199.7.91.13", "192.203.230.10",
   "192.5.5.241", "192.112.36.4", "198.97.190.53", "192.36.148.17", "192.58.128.30",
   "193.0.14.129", "199.7.83.42", "202.12.27.33"]

/-- `random.choice(ROOTS)` for the i-th draw: the oracle yields an
arbitrary natural, reduced mod 13 so every draw is some root address. -/
def rootAt (i : Nat) : String := ROOTS.getD (i % ROOTS.length) ""

/-- The `TYPES` dict (resolver.py line 9). -/
def TYPES : List (String × RdType) := [("A", .A), ("AAAA", .AAAA), ("CNAME", .CNAME)]

/-- `_glue_ips` (resolver.py lines 19-26): an insertion-ordered dict from
host (owner name with trailing dots stripped) to the accumulated list of
glue addresses, built from the A/AAAA RRsets of the additional section. -/
def glueInsert (m : List (String × List String)) (h : String) (ips : List String) :
    List (String × List String) :=
  match m with
  | [] => [(h, ips)]
  | (h', l) :: rest => if h' = h then (h', l ++ ips) :: rest else (h', l) :: glueInsert rest h ips

/-- Body of `_glue_ips`: `m.setdefault(host, []).extend(ips)` over the
additional section. -/
def glueIps (additional : List RRset) : List (String × List String) :=
  additional.foldl
    (fun m rr =>
      if rr.rdtype = RdType.A ∨ rr.rdtype = RdType.AAAA then
        glueInsert m (rstripDot rr.name) (rr.records.map (fun r => r.address.getD r.toText))
      else m)
    []

/-- `list(dict.fromkeys(next_ips))`: drop duplicates, keep first-seen order. -/
def dedupe (l : List String) : List String :=
  l.foldl (fun acc x => if x ∈ acc then acc else acc ++ [x]) []

/-- Referral handling (resolver.py lines 130-149): for every NS record of
the authority section, take glue addresses when the host is in the glue
dict, otherwise the system resolver's A then AAAA addresses (a lookup that
raises contributes nothing, just as an empty answer does). -/
def collectNsIps (env : NetEnv) (glue : List (String × List String))
    (authority : List RRset) : List String :=
  authority.foldl
    (fun acc auth =>
      if auth.rdtype = RdType.NS then
        auth.records.foldl
          (fun acc2 rr =>
            let host := rstripDot rr.target
            match alistGet glue host with
            | some ips => acc2 ++ ips
            | none => acc2 ++ env.sysResolveA host ++ env.sysResolveAAAA host)
          acc
      else acc)
    []

/-- The `question` sub-dict of a trace hop. -/
structure Question where
  name : String
  qtype : String
deriving DecidableEq

/-- One trace hop. Optional fields model keys that some hop dicts of the
source simply do not contain: `authority` is only in success hops (lines
87-104), `error` only in error hops (lines 78-80); `rtt_ms` is a number on
success and on the cache hop and `None` on error hops. Elapsed-time
measurements are abstracted to 0. -/
structure Hop where
  step : Nat
  server : String
  role : String
  question : Question
  answer : List RRsetJson
  additional : List RRsetJson
  authority : Option (List RRsetJson)
  rtt_ms : Option Nat
  cached : Bool
  error : Option String
deriving DecidableEq

/-- The `summary` sub-dict of a result; `final_ips` is `none` for JSON
`null` and `some l` for a JSON list `l`. -/
structure Summary where
  final_ips : Option (List String)
  total_ms : Nat
  hops : Nat
  cache_saved_ms : Nat
deriving DecidableEq

/-- The `query` echo sub-dict of a result. -/
structure QueryEcho where
  name : String
  qtype : String
  cache : String
deriving DecidableEq

/-- The dict a `resolve` call returns. -/
structure ResolveResult where
  query : QueryEcho
  summary : Summary
  trace : List Hop
  cname_chain : List String
deriving DecidableEq

/-- The value stored in the TTL cache on a successful resolution
(resolver.py line 170). -/
structure CacheEntry where
  answer : List RRsetJson
  final_ips : List String
  cname_chain : List String
  ms : Nat
deriving DecidableEq

/-! ## resolver.py — the iterative resolution loop -/

/-- The mutable state of the `while steps < 25` loop (resolver.py lines
50-57 and 59-154). `hop_id` numbers recorded trace hops; `steps` is the
capped iteration counter. `udpCalls` counts `dns.query.udp` invocations
and `rootCalls` counts `random.choice(ROOTS)` draws; both exist only to
index the oracles and to expose how many raw network attempts were made. -/
structure LoopState where
  trace : List Hop
  cname_chain : List String
  hop_id : Nat
  current : String
  ns_ips : List String
  final_rrsets : List RRsetJson
  steps : Nat
  udpCalls : Nat
  rootCalls : Nat

/-- Outcome of one loop iteration: go round again or leave the loop. -/
inductive StepOut where
  | next (st : LoopState)
  | stop (st : LoopState)

/-- The state an iteration outcome carries. -/
def StepOut.state : StepOut → LoopState
  | .next st => st
  | .stop st => st

/-- One iteration of the loop body (resolver.py lines 60-154), to be run
while `steps < 25`. `steps` is incremented at the top of every iteration
(line 60); `ns_ips` is never empty on entry, so `headD` with a dummy
default renders `ns_ips[0]`.

On transport failure (lines 71-82): with several candidates left, drop
the head silently; otherwise record an error hop (no `authority` key,
`rtt_ms` `None`) and reset to one fresh random root.

On a response (lines 85-154): record a success hop; break on NXDOMAIN;
break with `final_rrsets` when the answer holds the requested type;
otherwise follow the first CNAME of the answer if there is one (append
the stripped target to the chain, rewrite `current`, reset `ns_ips` to a
fresh root) and in every case fall through to referral handling on the
same response, which overwrites `ns_ips` with the deduplicated referral
addresses, or breaks when none were found. -/
def loopStep (env : NetEnv) (qtype : String) (rdtype : RdType) (st : LoopState) : StepOut :=
  let st := { st with steps := st.steps + 1 }
  let server := st.ns_ips.headD ""
  match env.udp st.udpCalls with
  | .error e =>
    let st := { st with udpCalls := st.udpCalls + 1 }
    if 1 < st.ns_ips.length then
      .next { st with ns_ips := st.ns_ips.tail }
    else
      .next { st with
        hop_id := st.hop_id + 1,
        trace := st.trace ++ [{
          step := st.hop_id + 1, server := server, role := "ns",
          question := ⟨st.current, qtype⟩,
          answer := [], additional := [], authority := none,
          rtt_ms := none, cached := false, error := some e }],
        ns_ips := [rootAt (env.rootChoice st.rootCalls)],
        rootCalls := st.rootCalls + 1 }
  | .ok resp =>
    let st := { st with udpCalls := st.udpCalls + 1 }
    let hopAnswer := resp.answer.map serializeRrset
    let st := { st with
      hop_id := st.hop_id + 1,
      trace := st.trace ++ [{
        step := st.hop_id + 1, server := server, role := "ns",
        question := ⟨st.current, qtype⟩,
        answer := hopAnswer,
        additional := resp.additional.map serializeRrset,
        authority := some (resp.authority.map serializeRrset),
        rtt_ms := some 0, cached := false, error := none }] }
    if resp.rcode = Rcode.NXDOMAIN then .stop st
    else if !resp.answer.isEmpty && resp.answer.any (fun a => a.rdtype == rdtype) then
      .stop { st with final_rrsets := hopAnswer }
    else
      let st :=
        match resp.answer.find? (fun a => a.rdtype == RdType.CNAME) with
        | some a =>
          let target := (a.records.headD ⟨"", none, ""⟩).target
          { st with
            cname_chain := st.cname_chain ++ [rstripDot target],
            current := target,
            ns_ips := [rootAt (env.rootChoice st.rootCalls)],
            rootCalls := st.rootCalls + 1 }
        | none => st
      let glue := glueIps resp.additional
      let next_ips := dedupe (collectNsIps env glue resp.authority)
      if next_ips.isEmpty then .stop st
      else .next { st with ns_ips := next_ips }

/-- The `while steps < 25` loop. `fuel` only forces termination of the
recursion: since every iteration increments `steps` by exactly one, fuel
`25` never runs out before the guard `steps < 25` stops the loop for a
state that starts at `steps = 0`. -/
def resolveLoopF (env : NetEnv) (qtype : String) (rdtype : RdType) :
    Nat → LoopState → LoopState
  | 0, st => st
  | fuel + 1, st =>
    if st.steps < 25 then
      match loopStep env qtype rdtype st with
      | .next st' => resolveLoopF env qtype rdtype fuel st'
      | .stop st' => st'
    else st

/-! ## resolver.py — the resolve driver -/

/-- The message of the `ValueError` raised on an unsupported record type. -/
def unsupportedMsg : String := "Only A, AAAA, CNAME supported in MVP"

/-- Initial loop state (resolver.py lines 50-57): empty accumulators, the
input name as `current`, one random root as `ns_ips`; the first
`random.choice` draw is consumed here. -/
def initState (env : NetEnv) (name : String) : LoopState :=
  ⟨[], [], 0, name, [rootAt (env.rootChoice 0)], [], 0, 0, 1⟩

/-- Final-IP extraction (resolver.py lines 159-163): for every final RRset
of type A or AAAA, the first whitespace token of every record value.
`split(" ")[0]` is the prefix of the value up to the first space. -/
def firstToken (v : String) : String :=
  String.mk (v.toList.takeWhile (fun c => c ≠ ' '))

/-- The `final_ips` accumulation loop. -/
def extractFinalIps (frr : List RRsetJson) : List String :=
  frr.foldl
    (fun acc rr =>
      if rr.rdtype = "A" ∨ rr.rdtype = "AAAA" then acc ++ rr.records.map firstToken
      else acc)
    []

/-- `min((rr["ttl"] for rr in final_rrsets), default=0)`. -/
def minTtl (frr : List RRsetJson) : Nat :=
  match frr with
  | [] => 0
  | r :: rs => (rs.map RRsetJson.ttl).foldl Nat.min r.ttl

/-- The cache write after the loop (resolver.py lines 165-172): guarded by
`final_rrsets and use_cache and self.cache`; stores the entry under the
minimum TTL of the final RRsets. The outer `none` propagates the
`StopIteration` a raising `TTLStore.set` would throw out of `resolve`. -/
def cacheWriteStep (u : Bool) (co : Option (TTLStore CacheEntry)) (key : Key)
    (frr : List RRsetJson) (ips cname : List String) (ms : Nat) (now : Int) :
    Option (Option (TTLStore CacheEntry)) :=
  if frr.isEmpty then some co
  else if u then
    match co with
    | some c =>
      (TTLStore.set c key ⟨frr, ips, cname, ms⟩ ((minTtl frr : Nat) : Int) now).map some
    | none => some co
  else some co

/-- The cache read on entry (resolver.py lines 39-41): only when
`use_cache` holds and a cache instance exists; returns the hit (if any)
and the store after the read (an expired entry has been popped). -/
def cacheRead (env : NetEnv) (co : Option (TTLStore CacheEntry)) (key : Key) (u : Bool) :
    Option CacheEntry × Option (TTLStore CacheEntry) :=
  if u then
    match co with
    | some c =>
      ((TTLStore.get c key env.cacheGetTime).1, some (TTLStore.get c key env.cacheGetTime).2)
    | none => (none, none)
  else (none, co)

/-- The synthetic single-hop result served on a cache hit (resolver.py
lines 42-48): the hop carries the stored answer, an empty additional
section, no `authority` key, `rtt_ms` 0 and `cached` true; `final_ips`
echoes the stored list verbatim. -/
def cacheHitResult (name qtype : String) (entry : CacheEntry) : ResolveResult :=
  ⟨⟨name, qtype, "on"⟩,
   ⟨some entry.final_ips, 0, 1, entry.ms⟩,
   [⟨1, "cache", "cache", ⟨name, qtype⟩, entry.answer, [], none, some 0, true, none⟩],
   entry.cname_chain⟩

/-- What a `resolve` call produces: the returned dict (or the raised
exception), the cache as it stands after the call, and the two
instrumentation counters of the run (`udpCalls` raw `dns.query.udp`
attempts, `steps` loop iterations). -/
structure ResolveOutput where
  result : Except String ResolveResult
  store : Option (TTLStore CacheEntry)
  udpCalls : Nat
  steps : Nat

/-- The cold path of `resolve` (resolver.py lines 50-179): run the loop
from the initial state, extract the final IPs, write the cache, build the
result. `final_ips or None` renders the empty list as JSON `null`. -/
def coldResolve (env : NetEnv) (co1 : Option (TTLStore CacheEntry))
    (name qtype : String) (rdtype : RdType) (u : Bool) : ResolveOutput :=
  let stF := resolveLoopF env qtype rdtype 25 (initState env name)
  let final_ips := extractFinalIps stF.final_rrsets
  match cacheWriteStep u co1 (name, qtype) stF.final_rrsets final_ips stF.cname_chain 0
      env.cacheSetTime with
  | none => ⟨.error "StopIteration", co1, stF.udpCalls, stF.steps⟩
  | some co2 =>
    ⟨.ok ⟨⟨name, qtype, if u then "on" else "off"⟩,
          ⟨if final_ips.isEmpty then none else some final_ips, 0, stF.trace.length, 0⟩,
          stF.trace,
          stF.cname_chain⟩,
     co2, stF.udpCalls, stF.steps⟩

/-- `DNSResolver.resolve` (resolver.py lines 32-179). The unsupported-type
`ValueError` is raised before the name is even parsed, so the cache is
untouched and no network call is made. -/
def resolve (env : NetEnv) (co : Option (TTLStore CacheEntry))
    (qname qtype : String) (use_cache : Bool) : ResolveOutput :=
  match alistGet TYPES qtype with
  | none => ⟨.error unsupportedMsg, co, 0, 0⟩
  | some rdtype =>
    let name := fromText qname
    match cacheRead env co (name, qtype) use_cache with
    | (some entry, co1) => ⟨.ok (cacheHitResult name qtype entry), co1, 0, 0⟩
    | (none, co1) => coldResolve env co1 name qtype rdtype use_cache

/-- The default of the `timeout` parameter of `DNSResolver.__init__`
(resolver.py line 29): `timeout: float = 2.0`, an exactly representable
value modelled as a rational. -/
def defaultTimeout : ℚ := 2

/-! ## Concrete runs used to instantiate and to refute claims -/

/-- An empty NXDOMAIN response. -/
def respNx : DnsResponse := ⟨[], [], [], .NXDOMAIN⟩

/-- An environment in which every server answers NXDOMAIN at once. -/
def env0 : NetEnv := ⟨fun _ => .ok respNx, fun _ => 0, fun _ => [], fun _ => [], 0, 0⟩

/-- The single hop `resolve env0 none "example.com" "A" false` records. -/
def hop0 : Hop :=
  ⟨1, "198.41.0.4", "ns", ⟨"example.com.", "A"⟩, [], [], some [], some 0, false, none⟩

/-- The result of `resolve env0 none "example.com" "A" false`. -/
def r0 : ResolveResult := ⟨⟨"example.com.", "A", "off"⟩, ⟨none, 0, 1, 0⟩, [hop0], []⟩

/-- A glueless referral for `com.` naming one NS host. -/
def respReferral : DnsResponse :=
  ⟨[], [⟨"com.", .NS, 300, [⟨"ns1.example.", none, "ns1.example."⟩]⟩], [], .NOERROR⟩

/-- An environment whose run exercises silent `ns_ips` fallback: the first
exchange is a referral to three addresses, the next three exchanges fail
(two silently skipped candidates, then a recorded error), the fifth
answers NXDOMAIN. -/
def env1 : NetEnv :=
  ⟨fun i => if i = 0 then .ok respReferral else if i = 4 then .ok respNx else .error "timeout",
   fun _ => 0, fun h => if h = "ns1.example" then ["h1", "h2", "h3"] else [], fun _ => [], 0, 0⟩

/-- A terminal CNAME answer for a CNAME-type query. -/
def respCname : DnsResponse :=
  ⟨[⟨"www.example.com.", .CNAME, 300, [⟨"alias.example.com.", none, "alias.example.com."⟩]⟩],
   [], [], .NOERROR⟩

/-- An environment that always serves the terminal CNAME answer. -/
def env2 : NetEnv := ⟨fun _ => .ok respCname, fun _ => 0, fun _ => [], fun _ => [], 0, 0⟩

/-- A cold CNAME-type resolution through `env2` against an empty cache,
followed by the same call against the cache it produced: the second call
is served from the cache. -/
def outWarm2 : ResolveOutput :=
  resolve env2 (resolve env2 (some ⟨[], 1000⟩) "www.example.com" "CNAME" true).store
    "www.example.com" "CNAME" true

/-- An environment whose first exchange fails (producing a recorded error
hop) and whose second answers NXDOMAIN. -/
def env5 : NetEnv :=
  ⟨fun i => if i = 0 then .error "timeout" else .ok respNx, fun _ => 0, fun _ => [], fun _ => [], 0, 0⟩

/-- A store at capacity (`maxsize` 2) whose oldest entry is `("a", "A")`
and which already contains the key `("b", "A")`. -/
def store4 : TTLStore Nat := ⟨[(("a", "A"), (10, 1)), (("b", "A"), (10, 2))], 2⟩

/-- A one-entry store below capacity, used to instantiate the cache
theorems. -/
def store8 : TTLStore Nat := ⟨[(("a", "A"), (10, 7))], 5⟩

/-! ## Invariants of the resolution loop -/

/-- Shape of every hop the loop records: never the synthetic cache hop,
and carrying an `authority` key exactly when the exchange succeeded
(equivalently, when no `error` key is present). -/
def HopOk (hop : Hop) : Prop :=
  hop.cached = false ∧ (hop.authority.isSome ↔ hop.error = none)

/-- Invariant tying the trace to the recorded-hop counter `hop_id`: the
counter equals the trace length, the recorded `step` numbers are exactly
`1, 2, ..., length` in order, and every recorded hop is well-shaped. -/
def TraceInv (t : List Hop) (n : Nat) : Prop :=
  n = t.length ∧ t.map Hop.step = List.range' 1 t.length ∧ ∀ hop ∈ t, HopOk hop

/-! ## Lemmas about the dict model -/

theorem alistGet_alistSet_self {κ β : Type} [DecidableEq κ] (l : List (κ × β)) (k : κ) (v : β) :
    alistGet (alistSet l k v) k = some v := by
  induction l with
  | nil => simp [alistGet, alistSet]
  | cons p rest ih =>
    obtain ⟨k', v'⟩ := p
    by_cases h : k' = k
    · subst h
      simp [alistGet, alistSet]
    · simp [alistGet, alistSet, h, ih]

theorem alistGet_alistSet_ne {κ β : Type} [DecidableEq κ] (l : List (κ × β)) (k k' : κ) (v : β)
    (h : k' ≠ k) : alistGet (alistSet l k v) k' = alistGet l k' := by
  have hke : ¬ k = k' := fun e => h e.symm
  induction l with
  | nil => simp [alistGet, alistSet, hke]
  | cons p rest ih =>
    obtain ⟨k'', v''⟩ := p
    by_cases h2 : k'' = k
    · subst h2
      simp [alistGet, alistSet, hke]
    · by_cases h3 : k'' = k'
      · subst h3
        simp [alistGet, alistSet, h2]
      · simp [alistGet, alistSet, h2, h3, ih]

theorem alistGet_eq_none_of_not_mem {κ β : Type} [DecidableEq κ] (l : List (κ × β)) (k : κ)
    (h : k ∉ l.map Prod.fst) : alistGet l k = none := by
  induction l with
  | nil => simp [alistGet]
  | cons p rest ih =>
    obtain ⟨k', v'⟩ := p
    simp only [List.map_cons, List.mem_cons, not_or] at h
    have hke : ¬ k' = k := fun e => h.1 e.symm
    simp [alistGet, hke, ih h.2]

theorem alistPop_sublist {κ β : Type} [DecidableEq κ] (l : List (κ × β)) (k : κ) :
    List.Sublist (alistPop l k) l := by
  induction l with
  | nil => simp [alistPop]
  | cons p rest ih =>
    obtain ⟨k', v'⟩ := p
    by_cases h : k' = k
    · simp only [alistPop, if_pos h]
      exact List.sublist_cons_self (k', v') rest
    · simpa [alistPop, h] using List.Sublist.cons₂ (k', v') ih

theorem alistSet_length_le {κ β : Type} [DecidableEq κ] (l : List (κ × β)) (k : κ) (v : β) :
    (alistSet l k v).length ≤ l.length + 1 := by
  induction l with
  | nil => simp [alistSet]
  | cons p rest ih =>
    obtain ⟨k', v'⟩ := p
    by_cases h : k' = k
    · simp [alistSet, h]
    · simp only [alistSet, if_neg h, List.length_cons]
      omega

/-! ## Lemmas about cache operations -/

theorem applyOp_maxsize {α : Type} (c : TTLStore α) (op : CacheOp α) :
    (applyOp c op).maxsize = c.maxsize := by
  cases op with
  | getOp k now =>
    simp only [applyOp, TTLStore.get]
    rcases alistGet c.s k with _ | ⟨exp, data⟩
    · rfl
    · dsimp only
      split <;> rfl
  | setOp k d ttl now =>
    simp only [applyOp, TTLStore.set]
    split
    · rfl
    · split
      · rcases c.s with _ | ⟨hd, rest⟩ <;> rfl
      · rfl

theorem applyOp_length {α : Type} (c : TTLStore α) (op : CacheOp α)
    (h : c.s.length ≤ c.maxsize) : (applyOp c op).s.length ≤ c.maxsize := by
  cases op with
  | getOp k now =>
    simp only [applyOp, TTLStore.get]
    rcases halist : alistGet c.s k with _ | ⟨exp, data⟩
    · exact h
    · dsimp only
      split
      · exact le_trans (List.Sublist.length_le (alistPop_sublist c.s k)) h
      · exact h
  | setOp k d ttl now =>
    simp only [applyOp, TTLStore.set]
    split
    · exact h
    · split
      · rcases hs : c.s with _ | ⟨hd, rest⟩
        · simp only [Option.getD_none]
          exact h
        · simp only [Option.getD_some]
          have h2 := alistSet_length_le rest k ((now + ttl, d))
          rw [hs] at h
          simp only [List.length_cons] at h
          omega
      · simp only [Option.getD_some]
        have h2 := alistSet_length_le c.s k ((now + ttl, d))
        rename_i hcap
        omega

theorem runOps_le {α : Type} (ops : List (CacheOp α)) :
    ∀ c : TTLStore α, c.s.length ≤ c.maxsize → (runOps c ops).s.length ≤ c.maxsize := by
  induction ops with
  | nil => intro c h; simpa [runOps] using h
  | cons op rest ih =>
    intro c h
    have hm := applyOp_maxsize c op
    have hl := applyOp_length c op h
    have := ih (applyOp c op) (by rw [hm]; exact hl)
    rw [hm] at this
    simpa [runOps] using this

/-! ## Claims about the TTL cache -/

/-- Claim C3 (counterexample): the per-UDP-exchange timeout of a
`DNSResolver` constructed without an explicit timeout is not 3.0 seconds. -/
theorem claim_C3_counterexample : defaultTimeout ≠ 3 := by
  norm_num [defaultTimeout]

/-- Claim C3 (amended): when a `DNSResolver` is constructed without an
explicit timeout, its per-UDP-exchange timeout defaults to 2.0 seconds. -/
theorem claim_C3_theorem : defaultTimeout = 2 := rfl

/-- Claim C4 (counterexample): with the store at capacity and the key
`("b", "A")` already present — so the insertion would not make the store
exceed `maxsize` — `set` nevertheless evicts the oldest entry
`("a", "A")`, leaving only one entry. -/
theorem claim_C4_counterexample :
    (TTLStore.set store4 ("b", "A") 3 5 0).map
      (fun c => (alistGet c.s ("a", "A"), alistGet c.s ("b", "A"), c.s.length)) =
      some (none, some (5, 3), 1) := by decide

/-- Claim C4 (amended): for every key, value and `ttl > 0`, on a
well-formed store (distinct keys, positive capacity) `set` stores the
value under `expires_at = now + ttl`; it evicts the oldest entry by
insertion order if and only if the store already holds at least `maxsize`
entries when `set` is called — even when the key is already present, so
that the insertion itself would not grow the store — and it leaves every
other entry alone; a `get` never changes the order of the surviving
entries. -/
theorem claim_C4_theorem {α : Type} (c : TTLStore α) (k : Key) (d : α) (ttl now : Int)
    (httl : 0 < ttl) (hms : 1 ≤ c.maxsize) (hnd : (c.s.map Prod.fst).Nodup) :
    (TTLStore.set c k d ttl now).isSome = true ∧
    (TTLStore.set c k d ttl now).map (fun c' => alistGet c'.s k) = some (some (now + ttl, d)) ∧
    (c.s.length < c.maxsize →
      ∀ k', k' ≠ k →
        (TTLStore.set c k d ttl now).map (fun c' => alistGet c'.s k') =
          some (alistGet c.s k')) ∧
    (c.maxsize ≤ c.s.length →
      ∀ k₀ v₀, c.s.head? = some (k₀, v₀) →
        (k₀ ≠ k →
          (TTLStore.set c k d ttl now).map (fun c' => alistGet c'.s k₀) = some none) ∧
        (∀ k', k' ≠ k → k' ≠ k₀ →
          (TTLStore.set c k d ttl now).map (fun c' => alistGet c'.s k') =
            some (alistGet c.s k'))) ∧
    List.Sublist (TTLStore.get c k now).2.s c.s := by
  have hset : ¬ ttl ≤ 0 := by omega
  obtain ⟨s, ms⟩ := c
  simp only at hms hnd ⊢
  have hsub : List.Sublist (TTLStore.get ⟨s, ms⟩ k now).2.s s := by
    simp only [TTLStore.get]
    rcases alistGet s k with _ | ⟨exp, data⟩
    · exact List.Sublist.refl _
    · dsimp only
      split
      · exact alistPop_sublist s k
      · exact List.Sublist.refl _
  by_cases hcap : ms ≤ s.length
  · rcases s with _ | ⟨⟨k₀', v₀'⟩, rest⟩
    · exfalso
      simp at hcap
      omega
    · have hcap' : ms ≤ rest.length + 1 := by simpa using hcap
      have hone : TTLStore.set ⟨(k₀', v₀') :: rest, ms⟩ k d ttl now =
          some ⟨alistSet rest k (now + ttl, d), ms⟩ := by
        simp [TTLStore.set, hset, hcap']
      refine ⟨by simp [hone], by simp [hone, alistGet_alistSet_self], ?_, ?_, hsub⟩
      · intro hlt
        exfalso
        simp only [List.length_cons] at hlt
        omega
      · intro _ k₀ v₀ hhead
        simp only [List.head?_cons, Option.some.injEq, Prod.mk.injEq] at hhead
        obtain ⟨hk1, hk2⟩ := hhead
        subst hk1
        subst hk2
        constructor
        · intro hk0
          have hnotmem : k₀' ∉ rest.map Prod.fst := by
            simp only [List.map_cons, List.nodup_cons] at hnd
            exact hnd.1
          simp [hone, alistGet_alistSet_ne _ _ _ _ hk0,
            alistGet_eq_none_of_not_mem rest k₀' hnotmem]
        · intro k' hk' hk0
          have hke : ¬ k₀' = k' := fun e => hk0 e.symm
          have hrest : alistGet ((k₀', v₀') :: rest) k' = alistGet rest k' := by
            simp [alistGet, hke]
          simp [hone, alistGet_alistSet_ne _ _ _ _ hk', hrest]
  · have hone : TTLStore.set ⟨s, ms⟩ k d ttl now =
        some ⟨alistSet s k (now + ttl, d), ms⟩ := by
      simp [TTLStore.set, hset, hcap]
    refine ⟨by simp [hone], by simp [hone, alistGet_alistSet_self], ?_, ?_, hsub⟩
    · intro _ k' hk'
      simp [hone, alistGet_alistSet_ne _ _ _ _ hk']
    · intro hge
      exact absurd hge hcap

/-- Claim C4 (witness): on a one-entry store below capacity, `set`
succeeds, and a distinct existing key keeps its binding. -/
theorem claim_C4_witness :
    (TTLStore.set store8 ("b", "A") 2 5 0).isSome = true ∧
    (TTLStore.set store8 ("b", "A") 2 5 0).map (fun c' => alistGet c'.s ("a", "A")) =
      some (alistGet store8.s ("a", "A")) := by
  have h := claim_C4_theorem store8 ("b", "A") 2 5 0 (by decide) (by decide) (by decide)
  exact ⟨h.1, h.2.2.1 (by decide) ("a", "A") (by decide)⟩

/-- Claim C7: after any sequence of `get` and `set` operations starting
from an empty cache, the number of entries never exceeds `maxsize`. -/
theorem claim_C7_theorem :
    ∀ (α : Type) (maxsize : Nat) (ops : List (CacheOp α)),
      (runOps ⟨[], maxsize⟩ ops).s.length ≤ maxsize := by
  intro α maxsize ops
  simpa using runOps_le ops ⟨[], maxsize⟩ (by simp)

/-- Claim C8: `get` returns the stored value exactly when an entry for the
key exists and the reading of the wall clock is strictly before its
expiration; otherwise it returns `none`, popping the entry when it was
present but expired; hence an entry is never returned at or past its
`expires_at`. -/
theorem claim_C8_theorem {α : Type} (c : TTLStore α) (k : Key) (now : Int) :
    (∀ exp d, alistGet c.s k = some (exp, d) → now < exp →
      TTLStore.get c k now = (some d, c)) ∧
    (∀ exp d, alistGet c.s k = some (exp, d) → exp ≤ now →
      TTLStore.get c k now = (none, ⟨alistPop c.s k, c.maxsize⟩)) ∧
    (alistGet c.s k = none → TTLStore.get c k now = (none, c)) ∧
    (∀ d, (TTLStore.get c k now).1 = some d →
      ∃ exp, alistGet c.s k = some (exp, d) ∧ now < exp) := by
  refine ⟨?_, ?_, ?_, ?_⟩
  · intro exp d hget hlt
    have hne : ¬ exp ≤ now := by omega
    simp [TTLStore.get, hget, hne]
  · intro exp d hget hle
    simp [TTLStore.get, hget, hle]
  · intro hget
    simp [TTLStore.get, hget]
  · intro d
    simp only [TTLStore.get]
    rcases hget : alistGet c.s k with _ | ⟨exp, data⟩
    · simp
    · dsimp only
      split
      · simp
      · rename_i hexp
        intro hd
        simp only [Option.some.injEq] at hd
        exact ⟨exp, by rw [hd], by omega⟩

/-- Claim C8 (witness): a live entry is returned with the store unchanged. -/
theorem claim_C8_witness : TTLStore.get store8 ("a", "A") 0 = (some 7, store8) :=
  (claim_C8_theorem store8 ("a", "A") 0).1 10 7 (by decide) (by decide)

/-- Claim C10: a `set` with `ttl ≤ 0` leaves the store completely
unchanged, and the resolver's cache-write step after a resolution whose
minimum final-RRSet TTL is 0 writes nothing to the cache. -/
theorem claim_C10_theorem :
    (∀ (α : Type) (c : TTLStore α) (k : Key) (d : α) (ttl now : Int),
      ttl ≤ 0 → TTLStore.set c k d ttl now = some c) ∧
    (∀ (u : Bool) (co : Option (TTLStore CacheEntry)) (key : Key) (frr : List RRsetJson)
        (ips cname : List String) (ms : Nat) (now : Int),
      minTtl frr = 0 → cacheWriteStep u co key frr ips cname ms now = some co) := by
  constructor
  · intro α c k d ttl now h
    simp [TTLStore.set, h]
  · intro u co key frr ips cname ms now h
    rcases hf : frr.isEmpty with _ | _
    · cases u
      · simp [cacheWriteStep, hf]
      · rcases co with _ | c
        · simp [cacheWriteStep, hf]
        · simp [cacheWriteStep, hf, TTLStore.set, h]
    · simp [cacheWriteStep, hf]

/-- Claim C10 (witness): a zero-TTL `set` is a no-op, and the cache-write
step of a resolution whose final RRset has TTL 0 leaves the cache as it
was. -/
theorem claim_C10_witness :
    TTLStore.set (⟨[], 1000⟩ : TTLStore Nat) ("example.com.", "A") 0 0 0 = some ⟨[], 1000⟩ ∧
    cacheWriteStep true (some ⟨[], 1000⟩) ("example.com.", "A")
      [⟨"example.com.", "A", 0, ["1.2.3.4"]⟩] ["1.2.3.4"] [] 0 0 = some (some ⟨[], 1000⟩) :=
  ⟨claim_C10_theorem.1 Nat ⟨[], 1000⟩ ("example.com.", "A") 0 0 0 (by decide),
   claim_C10_theorem.2 true (some ⟨[], 1000⟩) ("example.com.", "A")
     [⟨"example.com.", "A", 0, ["1.2.3.4"]⟩] ["1.2.3.4"] [] 0 0 (by decide)⟩

/-- Claim C9: a `resolve` call with a record type outside A, AAAA, CNAME
raises the validation `ValueError` before any network I/O (zero UDP
attempts, zero loop iterations), produces no trace, and leaves the cache
exactly as it was. -/
theorem claim_C9_theorem (env : NetEnv) (co : Option (TTLStore CacheEntry))
    (qname qtype : String) (u : Bool)
    (h : qtype ∉ (["A", "AAAA", "CNAME"] : List String)) :
    resolve env co qname qtype u = ⟨.error unsupportedMsg, co, 0, 0⟩ := by
  simp only [List.mem_cons, List.not_mem_nil, or_false, not_or] at h
  obtain ⟨h1, h2, h3⟩ := h
  have e1 : ¬ ("A" : String) = qtype := fun e => h1 e.symm
  have e2 : ¬ ("AAAA" : String) = qtype := fun e => h2 e.symm
  have e3 : ¬ ("CNAME" : String) = qtype := fun e => h3 e.symm
  have hT : alistGet TYPES qtype = none := by
    simp [TYPES, alistGet, e1, e2, e3]
  simp [resolve, hT]

/-- Claim C9 (witness): an MX query fails validation with the cache
untouched and no network attempt. -/
theorem claim_C9_witness :
    resolve env0 none "www.google.com" "MX" false = ⟨.error unsupportedMsg, none, 0, 0⟩ :=
  claim_C9_theorem env0 none "www.google.com" "MX" false (by decide)

/-! ## Lemmas about the resolution loop -/

theorem range1_snoc (n : Nat) : List.range' 1 (n + 1) = List.range' 1 n ++ [n + 1] := by
  have h2 : List.range' (1 + n) 1 = [1 + n] := by simp [List.range'_succ]
  have h := List.range'_append_1 1 n 1
  rw [h2] at h
  rw [Nat.add_comm n 1]
  exact h.symm

theorem TraceInv.snoc {t : List Hop} {n : Nat} (h : TraceInv t n) {hop : Hop}
    (hs : hop.step = n + 1) (hok : HopOk hop) : TraceInv (t ++ [hop]) (n + 1) := by
  obtain ⟨h1, h2, h3⟩ := h
  subst h1
  refine ⟨by simp, ?_, ?_⟩
  · rw [List.map_append, h2]
    simp only [List.map_cons, List.map_nil, List.length_append, List.length_cons,
      List.length_nil, Nat.add_zero]
    rw [hs, range1_snoc]
  · intro x hx
    rcases List.mem_append.mp hx with hx | hx
    · exact h3 x hx
    · simp only [List.mem_singleton] at hx
      subst hx
      exact hok

theorem loopStep_spec (env : NetEnv) (qtype : String) (rdtype : RdType) (st : LoopState)
    (hInv : TraceInv st.trace st.hop_id) :
    TraceInv (loopStep env qtype rdtype st).state.trace
      (loopStep env qtype rdtype st).state.hop_id ∧
    (loopStep env qtype rdtype st).state.steps = st.steps + 1 ∧
    (loopStep env qtype rdtype st).state.udpCalls = st.udpCalls + 1 ∧
    (loopStep env qtype rdtype st).state.trace.length ≤ st.trace.length + 1 := by
  rcases hud : env.udp st.udpCalls with e | resp
  · simp only [loopStep, hud]
    split
    · dsimp only [StepOut.state]
      exact ⟨hInv, rfl, rfl, by omega⟩
    · dsimp only [StepOut.state]
      exact ⟨TraceInv.snoc hInv rfl ⟨rfl, by simp⟩, rfl, rfl, by simp⟩
  · simp only [loopStep, hud]
    split
    · dsimp only [StepOut.state]
      exact ⟨TraceInv.snoc hInv rfl ⟨rfl, by simp⟩, rfl, rfl, by simp⟩
    · split
      · dsimp only [StepOut.state]
        exact ⟨TraceInv.snoc hInv rfl ⟨rfl, by simp⟩, rfl, rfl, by simp⟩
      · split
        · split
          · dsimp only [StepOut.state]
            exact ⟨TraceInv.snoc hInv rfl ⟨rfl, by simp⟩, rfl, rfl, by simp⟩
          · dsimp only [StepOut.state]
            exact ⟨TraceInv.snoc hInv rfl ⟨rfl, by simp⟩, rfl, rfl, by simp⟩
        · split
          · dsimp only [StepOut.state]
            exact ⟨TraceInv.snoc hInv rfl ⟨rfl, by simp⟩, rfl, rfl, by simp⟩
          · dsimp only [StepOut.state]
            exact ⟨TraceInv.snoc hInv rfl ⟨rfl, by simp⟩, rfl, rfl, by simp⟩

theorem resolveLoopF_spec (env : NetEnv) (qtype : String) (rdtype : RdType) :
    ∀ (fuel : Nat) (st : LoopState), TraceInv st.trace st.hop_id →
      TraceInv (resolveLoopF env qtype rdtype fuel st).trace
        (resolveLoopF env qtype rdtype fuel st).hop_id ∧
      st.steps ≤ (resolveLoopF env qtype rdtype fuel st).steps ∧
      (st.steps ≤ 25 → (resolveLoopF env qtype rdtype fuel st).steps ≤ 25) ∧
      (resolveLoopF env qtype rdtype fuel st).udpCalls + st.steps =
        st.udpCalls + (resolveLoopF env qtype rdtype fuel st).steps ∧
      (resolveLoopF env qtype rdtype fuel st).trace.length + st.steps ≤
        st.trace.length + (resolveLoopF env qtype rdtype fuel st).steps := by
  intro fuel
  induction fuel with
  | zero =>
    intro st hInv
    exact ⟨hInv, le_refl _, fun h => h, rfl, le_refl _⟩
  | succ n ih =>
    intro st hInv
    simp only [resolveLoopF]
    by_cases hs : st.steps < 25
    · simp only [if_pos hs]
      have hstep := loopStep_spec env qtype rdtype st hInv
      rcases hout : loopStep env qtype rdtype st with st' | st'
      · rw [hout] at hstep
        dsimp only [StepOut.state] at hstep ⊢
        obtain ⟨hInv', hst', hud', htr'⟩ := hstep
        obtain ⟨ih1, ih2, ih3, ih4, ih5⟩ := ih st' hInv'
        exact ⟨ih1, by omega, fun _ => ih3 (by omega), by omega, by omega⟩
      · rw [hout] at hstep
        dsimp only [StepOut.state] at hstep ⊢
        obtain ⟨hInv', hst', hud', htr'⟩ := hstep
        exact ⟨hInv', by omega, fun _ => by omega, by omega, by omega⟩
    · rw [if_neg hs]
      exact ⟨hInv, le_refl _, fun h => h, rfl, le_refl _⟩

theorem coldResolve_spec (env : NetEnv) (co1 : Option (TTLStore CacheEntry))
    (name qtype : String) (rdtype : RdType) (u : Bool) :
    ((coldResolve env co1 name qtype rdtype u).udpCalls =
        (coldResolve env co1 name qtype rdtype u).steps ∧
      (coldResolve env co1 name qtype rdtype u).steps ≤ 25) ∧
    ∀ r, (coldResolve env co1 name qtype rdtype u).result = .ok r →
      r.summary.hops = r.trace.length ∧
      r.trace.map Hop.step = List.range' 1 r.trace.length ∧
      (∀ hop ∈ r.trace, HopOk hop) ∧
      r.trace.length ≤ (coldResolve env co1 name qtype rdtype u).udpCalls ∧
      r.summary.final_ips ≠ some [] := by
  have h0 : TraceInv (initState env name).trace (initState env name).hop_id := by
    refine ⟨rfl, rfl, ?_⟩
    intro hop h
    simp [initState] at h
  obtain ⟨hInv, h2, h3, h4, h5⟩ := resolveLoopF_spec env qtype rdtype 25 (initState env name) h0
  have hud : (resolveLoopF env qtype rdtype 25 (initState env name)).udpCalls =
      (resolveLoopF env qtype rdtype 25 (initState env name)).steps := by
    have hz1 : (initState env name).steps = 0 := rfl
    have hz2 : (initState env name).udpCalls = 0 := rfl
    omega
  have hsteps : (resolveLoopF env qtype rdtype 25 (initState env name)).steps ≤ 25 :=
    h3 (by exact Nat.zero_le 25)
  have htr : (resolveLoopF env qtype rdtype 25 (initState env name)).trace.length ≤
      (resolveLoopF env qtype rdtype 25 (initState env name)).steps := by
    have hz1 : (initState env name).steps = 0 := rfl
    have hz3 : (initState env name).trace.length = 0 := rfl
    omega
  simp only [coldResolve]
  split
  · refine ⟨⟨hud, hsteps⟩, ?_⟩
    intro r hr
    simp at hr
  · refine ⟨⟨hud, hsteps⟩, ?_⟩
    intro r hr
    simp only [Except.ok.injEq] at hr
    subst hr
    obtain ⟨hi1, hi2, hi3⟩ := hInv
    refine ⟨rfl, hi2, hi3, ?_, ?_⟩
    · show (resolveLoopF env qtype rdtype 25 (initState env name)).trace.length ≤
        (resolveLoopF env qtype rdtype 25 (initState env name)).udpCalls
      omega
    rcases he : (extractFinalIps
        (resolveLoopF env qtype rdtype 25 (initState env name)).final_rrsets).isEmpty with _ | _
    · simp only [he, Bool.false_eq_true, if_false]
      intro hcon
      simp only [Option.some.injEq] at hcon
      rw [hcon] at he
      simp at he
    · simp [he]

/-- The single hop of a cache-hit result. -/
theorem cacheHitResult_trace (name qtype : String) (entry : CacheEntry) :
    (cacheHitResult name qtype entry).trace =
      [⟨1, "cache", "cache", ⟨name, qtype⟩, entry.answer, [], none, some 0, true, none⟩] := rfl

/-! ## Claims about resolve -/

/-- Claim C1 (counterexample): a run in which the first exchange is a
referral to three candidate addresses and the next three exchanges fail
makes five UDP attempts over five loop iterations (the capped step counter
advances on the two silent fallbacks) while recording only three trace
hops — so the capped counter does not count recorded hops, and the 25-step
cap bounds raw UDP attempts. -/
theorem claim_C1_counterexample :
    (resolve env1 none "example.com" "A" false).steps = 5 ∧
    (resolve env1 none "example.com" "A" false).udpCalls = 5 ∧
    (resolve env1 none "example.com" "A" false).result.toOption.map
      (fun r => r.trace.length) = some 3 := by decide

/-- Claim C1 (amended): the counter governing the 25-step cap advances on
every loop iteration — successful hops, recorded error hops, and silent
fallbacks through `ns_ips` candidates alike — and each iteration makes
exactly one UDP attempt, so the cap bounds the number of raw UDP attempts
at 25; recorded trace hops advance a separate counter only on recorded
hops, so the number of recorded hops is bounded by the number of raw UDP
attempts (and hence also by 25). -/
theorem claim_C1_theorem (env : NetEnv) (co : Option (TTLStore CacheEntry))
    (qname qtype : String) (u : Bool) :
    (resolve env co qname qtype u).udpCalls = (resolve env co qname qtype u).steps ∧
    (resolve env co qname qtype u).steps ≤ 25 ∧
    ∀ r, (resolve env co qname qtype u).result = .ok r →
      (∀ hop ∈ r.trace, hop.cached = false) →
      r.trace.length ≤ (resolve env co qname qtype u).udpCalls := by
  rcases hT : alistGet TYPES qtype with _ | rdtype
  · have he : resolve env co qname qtype u = ⟨.error unsupportedMsg, co, 0, 0⟩ := by
      simp only [resolve, hT]
    rw [he]
    refine ⟨rfl, Nat.zero_le 25, ?_⟩
    intro r hr
    simp at hr
  · rcases hcr : cacheRead env co (fromText qname, qtype) u with ⟨hit, co1⟩
    rcases hit with _ | entry
    · have he : resolve env co qname qtype u =
          coldResolve env co1 (fromText qname) qtype rdtype u := by
        simp only [resolve, hcr, hT]
      obtain ⟨⟨hu, hs⟩, hok⟩ := coldResolve_spec env co1 (fromText qname) qtype rdtype u
      rw [he]
      exact ⟨hu, hs, fun r hr _ => (hok r hr).2.2.2.1⟩
    · have he : resolve env co qname qtype u =
          ⟨.ok (cacheHitResult (fromText qname) qtype entry), co1, 0, 0⟩ := by
        simp only [resolve, hcr, hT]
      rw [he]
      refine ⟨rfl, Nat.zero_le 25, ?_⟩
      intro r hr hnc
      have hrr : cacheHitResult (fromText qname) qtype entry = r := by
        simpa using hr
      subst hrr
      exfalso
      have hm : (⟨1, "cache", "cache", ⟨fromText qname, qtype⟩, entry.answer, [], none,
          some 0, true, none⟩ : Hop) ∈ (cacheHitResult (fromText qname) qtype entry).trace := by
        rw [cacheHitResult_trace]
        exact List.mem_singleton_self _
      have := hnc _ hm
      simp at this

/-- Claim C1 (witness): instantiating the amended claim on a concrete
NXDOMAIN run. -/
theorem claim_C1_witness :
    (resolve env0 none "example.com" "A" false).udpCalls =
      (resolve env0 none "example.com" "A" false).steps ∧
    (resolve env0 none "example.com" "A" false).steps ≤ 25 ∧
    r0.trace.length ≤ (resolve env0 none "example.com" "A" false).udpCalls := by
  obtain ⟨h1, h2, h3⟩ := claim_C1_theorem env0 none "example.com" "A" false
  exact ⟨h1, h2, h3 r0 (by decide) (by decide)⟩

/-- Claim C2 (counterexample): a cold CNAME-type resolution caches an
entry whose `final_ips` list is empty; the cache-served repeat of the same
query returns `summary.final_ips = []` (a JSON empty list, not `null`)
although the resolution produced no addresses. -/
theorem claim_C2_counterexample :
    outWarm2.result.toOption.map (fun r => (r.summary.final_ips, r.trace.map Hop.cached)) =
      some (some [], [true]) := by decide

/-- Claim C2 (amended): every result computed by the iterative walk (that
is, any result none of whose hops is the synthetic cache hop) has
`summary.final_ips` equal to `null` — never the empty list — when
resolution produced no addresses; a cache-served result instead echoes the
stored `final_ips` list verbatim, which can be the empty list. -/
theorem claim_C2_theorem (env : NetEnv) (co : Option (TTLStore CacheEntry))
    (qname qtype : String) (u : Bool) :
    ∀ r, (resolve env co qname qtype u).result = .ok r →
      (∀ hop ∈ r.trace, hop.cached = false) →
      r.summary.final_ips ≠ some [] := by
  rcases hT : alistGet TYPES qtype with _ | rdtype
  · have he : resolve env co qname qtype u = ⟨.error unsupportedMsg, co, 0, 0⟩ := by
      simp only [resolve, hT]
    rw [he]
    intro r hr
    simp at hr
  · rcases hcr : cacheRead env co (fromText qname, qtype) u with ⟨hit, co1⟩
    rcases hit with _ | entry
    · have he : resolve env co qname qtype u =
          coldResolve env co1 (fromText qname) qtype rdtype u := by
        simp only [resolve, hcr, hT]
      rw [he]
      intro r hr _
      exact ((coldResolve_spec env co1 (fromText qname) qtype rdtype u).2 r hr).2.2.2.2
    · have he : resolve env co qname qtype u =
          ⟨.ok (cacheHitResult (fromText qname) qtype entry), co1, 0, 0⟩ := by
        simp only [resolve, hcr, hT]
      rw [he]
      intro r hr hnc
      have hrr : cacheHitResult (fromText qname) qtype entry = r := by
        simpa using hr
      subst hrr
      exfalso
      have hm : (⟨1, "cache", "cache", ⟨fromText qname, qtype⟩, entry.answer, [], none,
          some 0, true, none⟩ : Hop) ∈ (cacheHitResult (fromText qname) qtype entry).trace := by
        rw [cacheHitResult_trace]
        exact List.mem_singleton_self _
      have := hnc _ hm
      simp at this

/-- Claim C2 (witness): instantiating the amended claim on a concrete
NXDOMAIN run whose result has no addresses and shows `null`. -/
theorem claim_C2_witness : r0.summary.final_ips ≠ some [] :=
  claim_C2_theorem env0 none "example.com" "A" false r0 (by decide) (by decide)

/-- Claim C5 (counterexample): the first hop of a run whose first exchange
fails is a recorded error hop, and its JSON object carries no `authority`
key at all — refuting that every hop contains `authority` as a list. -/
theorem claim_C5_counterexample :
    (resolve env5 none "example.com" "A" false).result.toOption.bind
      (fun r => (r.trace.map Hop.authority).head?) = some none := by decide

/-- Claim C5 (amended): every hop of every result carries `answer` and
`additional` as lists of serialized RRSets (they are unconditional keys of
every hop dict the code builds), but `authority` is present exactly on
successful nameserver hops: error hops and the synthetic cache-hit hop
carry no `authority` key. -/
theorem claim_C5_theorem (env : NetEnv) (co : Option (TTLStore CacheEntry))
    (qname qtype : String) (u : Bool) :
    ∀ r, (resolve env co qname qtype u).result = .ok r →
      ∀ hop ∈ r.trace, (hop.authority.isSome ↔ (hop.error = none ∧ hop.cached = false)) := by
  rcases hT : alistGet TYPES qtype with _ | rdtype
  · have he : resolve env co qname qtype u = ⟨.error unsupportedMsg, co, 0, 0⟩ := by
      simp only [resolve, hT]
    rw [he]
    intro r hr
    simp at hr
  · rcases hcr : cacheRead env co (fromText qname, qtype) u with ⟨hit, co1⟩
    rcases hit with _ | entry
    · have he : resolve env co qname qtype u =
          coldResolve env co1 (fromText qname) qtype rdtype u := by
        simp only [resolve, hcr, hT]
      rw [he]
      intro r hr hop hm
      obtain ⟨hc, hiff⟩ :=
        ((coldResolve_spec env co1 (fromText qname) qtype rdtype u).2 r hr).2.2.1 hop hm
      exact ⟨fun h => ⟨hiff.mp h, hc⟩, fun h => hiff.mpr h.1⟩
    · have he : resolve env co qname qtype u =
          ⟨.ok (cacheHitResult (fromText qname) qtype entry), co1, 0, 0⟩ := by
        simp only [resolve, hcr, hT]
      rw [he]
      intro r hr hop hm
      have hrr : cacheHitResult (fromText qname) qtype entry = r := by
        simpa using hr
      subst hrr
      rw [cacheHitResult_trace] at hm
      simp only [List.mem_singleton] at hm
      subst hm
      simp

/-- Claim C5 (witness): the successful hop of a concrete NXDOMAIN run has
an `authority` key, no `error` key, and is not a cache hop. -/
theorem claim_C5_witness :
    hop0.authority.isSome ↔ (hop0.error = none ∧ hop0.cached = false) :=
  claim_C5_theorem env0 none "example.com" "A" false r0 (by decide) hop0 (by decide)

/-- Claim C6: in every result — including a cache-served one — the
recorded hops carry step numbers exactly `1, 2, ..., len(trace)` in order,
and `summary.hops` equals `len(trace)`. -/
theorem claim_C6_theorem (env : NetEnv) (co : Option (TTLStore CacheEntry))
    (qname qtype : String) (u : Bool) :
    ∀ r, (resolve env co qname qtype u).result = .ok r →
      r.trace.map Hop.step = List.range' 1 r.trace.length ∧
      r.summary.hops = r.trace.length := by
  rcases hT : alistGet TYPES qtype with _ | rdtype
  · have he : resolve env co qname qtype u = ⟨.error unsupportedMsg, co, 0, 0⟩ := by
      simp only [resolve, hT]
    rw [he]
    intro r hr
    simp at hr
  · rcases hcr : cacheRead env co (fromText qname, qtype) u with ⟨hit, co1⟩
    rcases hit with _ | entry
    · have he : resolve env co qname qtype u =
          coldResolve env co1 (fromText qname) qtype rdtype u := by
        simp only [resolve, hcr, hT]
      rw [he]
      intro r hr
      have h := (coldResolve_spec env co1 (fromText qname) qtype rdtype u).2 r hr
      exact ⟨h.2.1, h.1⟩
    · have he : resolve env co qname qtype u =
          ⟨.ok (cacheHitResult (fromText qname) qtype entry), co1, 0, 0⟩ := by
        simp only [resolve, hcr, hT]
      rw [he]
      intro r hr
      have hrr : cacheHitResult (fromText qname) qtype entry = r := by
        simpa using hr
      subst hrr
      constructor
      · rw [cacheHitResult_trace]
        rfl
      · rfl

/-- Claim C6 (witness): step numbering and hop count on a concrete
NXDOMAIN run. -/
theorem claim_C6_witness :
    r0.trace.map Hop.step = List.range' 1 r0.trace.length ∧
    r0.summary.hops = r0.trace.length :=
  claim_C6_theorem env0 none "example.com" "A" false r0 (by decide)

end DnsExplorer
